import Mathlib

/-!
Verification of the multinet-api bulk ingestion core: a shallow embedding of
`multinet/api/tasks/upload/process_single_table.py` and
`multinet/api/tasks/process/utils.py`, together with proofs about the row
normalizer, the batch loader, the type-coercion cascades and the upload
lifecycle operations.

Python dicts are modelled as ordered association lists with Python's
update-in-place-or-append assignment semantics; raw cells are `Option String`
(Python `None` or a string); a raised exception is an `Except.error`.
-/

set_option autoImplicit false

namespace Multinet

/-- A Python exception relevant to the embedded code: `ValueError` (raised and
caught by the coercion cascades) or `KeyError` (raised by `dict.pop` on a
missing key). -/
inductive PyErr where
  | valueError
  | keyError (k : String)
deriving DecidableEq, Repr

/-- A Python value that can appear in a document during processing: `None`, a
string, or a typed value produced by a coercion function. -/
inductive PyVal where
  | none
  | str (s : String)
  | bool (b : Bool)
  | int (n : Int)
  | float (x : Float)

/-- A raw cell as produced by a source adapter: Python `None` or a string. -/
abbrev Cell := Option String

/-- A raw row: an ordered mapping from column name to cell. -/
abbrev Row := List (String × Cell)

/-- A working/normalized document: an ordered mapping from key to value. -/
abbrev Doc := List (String × PyVal)

/-- Lookup of a key in an ordered dict (first, and in a Python dict only,
occurrence). -/
def dictFind? {α : Type} : List (String × α) → String → Option α
  | [], _ => Option.none
  | (k', v) :: rest, k => if k' = k then some v else dictFind? rest k

/-- Python `d[k] = v`: update the entry in place when the key exists, append
at the end otherwise. -/
def dictSet {α : Type} : List (String × α) → String → α → List (String × α)
  | [], k, v => [(k, v)]
  | (k', v') :: rest, k, v =>
    if k' = k then (k, v) :: rest else (k', v') :: dictSet rest k v

/-- Remove a key from an ordered dict, keeping the other entries in order. -/
def dictErase {α : Type} : List (String × α) → String → List (String × α)
  | [], _ => []
  | (k', v') :: rest, k => if k' = k then rest else (k', v') :: dictErase rest k

/-- Python `d.pop(k)` without a default: the value together with the shrunk
dict, or a `KeyError` when the key is absent. -/
def dictPop {α : Type} (d : List (String × α)) (k : String) :
    Except PyErr (α × List (String × α)) :=
  match dictFind? d k with
  | some v => .ok (v, dictErase d k)
  | Option.none => .error (.keyError k)

/-- Python truthiness of an optional string: `None` and `''` are falsy. -/
def strTruthy : Option String → Bool
  | Option.none => false
  | some s => s ≠ ""

/-- Python truthiness of a modelled value. -/
def pyTruthy : PyVal → Bool
  | .none => false
  | .str s => s ≠ ""
  | .bool b => b
  | .int n => n ≠ 0
  | .float x => x != 0.0

/-- Python `str(v)` on the values that can reach the `str(...)` calls of
`process_row`. -/
def pyStr : PyVal → String
  | .none => "None"
  | .str s => s
  | .bool b => if b then "True" else "False"
  | .int n => toString n
  | .float x => toString x

/-- A raw cell viewed as a Python value. -/
def cellVal : Cell → PyVal
  | Option.none => .none
  | some s => .str s

/-- `dict(row)`: a fresh dict holding the same entries as the raw row. -/
def copyRow (r : Row) : Doc :=
  r.map (fun p => (p.1, cellVal p.2))

/-- Python `d.get(k)` where the key may itself be `None` (absent declared
column): the stored value, or `None` when the key is absent. -/
def docGet (d : Doc) (k : Option String) : PyVal :=
  match k with
  | Option.none => .none
  | some s => (dictFind? d s).getD .none

/-- Modelled from the spec: `TableTypeAnnotation.Type` lives in
`multinet/api/models`, which is not among the analysed sources; per the spec
its members are LABEL, BOOLEAN, CATEGORY, NUMBER, DATE, PRIMARY_KEY,
EDGE_SOURCE and EDGE_TARGET. -/
inductive TTAType where
  | label
  | boolean
  | category
  | number
  | date
  | primary
  | source
  | target
deriving DecidableEq, Repr

/-- The Python standard-library and third-party functions that
`str_to_datestr` and `str_to_number` call out to (`float(s)`, `int(s)`,
`datetime.fromtimestamp`, `.isoformat()`, `dateutil.parser.parse`). They are
not code of this repository, so they enter the embedding as parameters; a
`none` result models the call raising `ValueError`. -/
structure PyRuntime where
  DT : Type
  floatOfStr : String → Option Float
  intOfStr : String → Option Int
  fromtimestamp : Float → Option DT
  isoformat : DT → String
  dateutilParse : String → Option DT

/-- `str_to_bool` from `multinet/api/tasks/process/utils.py`: the cascade
`from_int`, `from_json_bool`, `from_yaml_bool`; first non-`None` answer wins,
otherwise `ValueError`. All string matches in the source are exact
(case-sensitive) comparisons. -/
def str_to_bool (entry : String) : Except PyErr Bool :=
  -- bool(int(x)) on the two guarded literals '0' and '1'
  let from_int : String → Option Bool := fun x =>
    if x = "0" then some false else if x = "1" then some true else Option.none
  -- json.loads on the two guarded literals 'true' and 'false'
  let from_json_bool : String → Option Bool := fun x =>
    if x = "true" then some true else if x = "false" then some false
    else Option.none
  let from_yaml_bool : String → Option Bool := fun x =>
    if x = "no" ∨ x = "off" then some false
    else if x = "yes" ∨ x = "on" then some true
    else Option.none
  match from_int entry with
  | some b => .ok b
  | Option.none =>
    match from_json_bool entry with
    | some b => .ok b
    | Option.none =>
      match from_yaml_bool entry with
      | some b => .ok b
      | Option.none => .error .valueError

/-- `str_to_datestr`: try `datetime.fromtimestamp(float(entry)).isoformat()`,
falling back to `dateutil.parser.parse(entry).isoformat()` when either the
float parse or the timestamp conversion raises `ValueError`; a parse failure
of the fallback propagates as `ValueError`. -/
def str_to_datestr (R : PyRuntime) (entry : String) : Except PyErr String :=
  match (R.floatOfStr entry).bind R.fromtimestamp with
  | some d => .ok (R.isoformat d)
  | Option.none =>
    match R.dateutilParse entry with
    | some d => .ok (R.isoformat d)
    | Option.none => .error .valueError

/-- `str_to_number`: `int(entry)` first, else `float(entry)`, else the
`ValueError` of the float parse propagates. -/
def str_to_number (R : PyRuntime) (entry : String) : Except PyErr PyVal :=
  match R.intOfStr entry with
  | some n => .ok (.int n)
  | Option.none =>
    match R.floatOfStr entry with
    | some x => .ok (.float x)
    | Option.none => .error .valueError

/-- `processor_dict`: the enum-to-function dispatch table, keyed by the
'boolean', 'date' and 'number' column types; every other type has no
processor. -/
def processor_dict (R : PyRuntime) : TTAType → Option (String → Except PyErr PyVal)
  | .boolean => some (fun s => (str_to_bool s).map PyVal.bool)
  | .date => some (fun s => (str_to_datestr R s).map PyVal.str)
  | .number => some (str_to_number R)
  | _ => Option.none

/-- Lines 12–14 of `process_single_table.py`:
`new_row['_key'] = str(new_row.pop(primary_key))`, guarded by
`if primary_key:` (which is false for `None` and for the empty string). -/
def keyRename (new_row : Doc) : Option String → Except PyErr Doc
  | some pk =>
    if pk = "" then .ok new_row
    else (dictPop new_row pk).map (fun p => dictSet p.2 "_key" (.str (pyStr p.1)))
  | Option.none => .ok new_row

/-- Python `'/' in s` for the single-character separator (written over the
character list so that it evaluates by reduction). -/
def hasSlash (s : String) : Bool := s.data.contains '/'

/-- Helper for `s.split('/')`: split a character list at every separator. -/
def splitSlashAux : List Char → List Char → List (List Char)
  | [], acc => [acc.reverse]
  | c :: cs, acc =>
    if c = '/' then acc.reverse :: splitSlashAux cs []
    else splitSlashAux cs (c :: acc)

/-- Python `s.split('/')`: the (never empty) list of separator-free
segments; adjacent separators yield empty segments, like in Python. -/
def splitSlash (s : String) : List String :=
  (splitSlashAux s.data []).map String.mk

/-- Lines 25–30: prefix a bare endpoint with the node table name when one was
supplied; otherwise keep the endpoint as is. -/
def resolveEndpoint (node_table_name : Option String) (s : String) : String :=
  if ¬ hasSlash s ∧ strTruthy node_table_name then
    (node_table_name.getD "") ++ "/" ++ s
  else s

/-- The first segment of a qualified id: `s.split('/')[0]`. -/
def splitHead (s : String) : String := (splitSlash s).headD ""

/-- Lines 16–38: when both endpoint columns are declared (non-empty names),
move their values to `_from`/`_to`, qualify bare endpoints with
`node_table_name`, and run the two sanity checks. `.ok none` models
`return None`; re-assigning `_from`/`_to` with an unchanged value is the
same dict state as not assigning, so the qualified values are written back
unconditionally. The checks of lines 22–37 read the remembered endpoint
strings rather than re-subscripting `new_row['_from']`/`['_to']`; the two
coincide except when the declared edge-target column is literally
`"_from"`, where Python's line 19 pop removes the `_from` key and line 22
then raises `KeyError` while this rendering proceeds — theorems about edge
rows carry the hypothesis `et ≠ "_from"` to exclude that corner. -/
def edgeResolve (new_row : Doc)
    (edge_source edge_target node_table_name : Option String) :
    Except PyErr (Option Doc) :=
  match edge_source, edge_target with
  | some es, some et =>
    if es = "" ∨ et = "" then .ok (some new_row)
    else
      match dictPop new_row es with
      | .error e => .error e
      | .ok (vf, r1) =>
        let fromVal := pyStr vf
        let r2 := dictSet r1 "_from" (.str fromVal)
        match dictPop r2 et with
        | .error e => .error e
        | .ok (vt, r3) =>
          let toVal := pyStr vt
          let r4 := dictSet r3 "_to" (.str toVal)
          -- line 22: if we don't have a node_table_name, skip the row
          if (¬ hasSlash fromVal ∧ ¬ strTruthy node_table_name) ∨
             (¬ hasSlash toVal ∧ ¬ strTruthy node_table_name) then
            .ok Option.none
          else
            -- lines 25–30
            let fromVal := resolveEndpoint node_table_name fromVal
            let toVal := resolveEndpoint node_table_name toVal
            let r5 := dictSet r4 "_from" (.str fromVal)
            let r6 := dictSet r5 "_to" (.str toVal)
            -- line 33: both prefixes must equal the node table name
            if strTruthy node_table_name ∧
               (splitHead toVal ≠ node_table_name.getD "" ∨
                splitHead fromVal ≠ node_table_name.getD "") then
              .ok Option.none
            -- line 37: no more than one slash in either endpoint
            else if (splitSlash fromVal).length > 2 ∨
                (splitSlash toVal).length > 2 then
              .ok Option.none
            else .ok (some r6)
  | _, _ => .ok (some new_row)

/-- Lines 41–55: the per-column coercion pass. Each cell is read from the
original `row` (not the working copy); `None` cells are skipped; a processor
result replaces the value; the `ValueError` of a failed coercion is swallowed
and the value kept (the processors above raise nothing else). -/
def coerceStep (R : PyRuntime) (row : Row) (new_row : Doc)
    (p : String × TTAType) : Doc :=
  match dictFind? row p.1 with
  | Option.none => new_row
  | some Option.none => new_row
  | some (some s) =>
    match processor_dict R p.2 with
    | Option.none => new_row
    | some f =>
      match f s with
      | .ok v => dictSet new_row p.1 v
      | .error _ => new_row

/-- The whole loop of lines 41–55, iterating `coerceStep` over the declared
columns. -/
def coercePass (R : PyRuntime) (row : Row) (cols : List (String × TTAType))
    (init : Doc) : Doc :=
  cols.foldl (coerceStep R row) init

/-- `process_row` from `multinet/api/tasks/upload/process_single_table.py`.
`.error e` models the Python call raising `e`; `.ok none` a skipped row;
`.ok (some doc)` an accepted row. -/
def process_row (R : PyRuntime) (row : Row) (cols : List (String × TTAType))
    (primary_key edge_source edge_target node_table_name : Option String) :
    Except PyErr (Option Doc) :=
  let new_row := copyRow row
  -- line 9: check for primary key or source and target, if missing, skip row
  if ¬ (pyTruthy (docGet new_row primary_key) ||
        (pyTruthy (docGet new_row edge_source) &&
         pyTruthy (docGet new_row edge_target))) then
    .ok Option.none
  else
    match keyRename new_row primary_key with
    | .error e => .error e
    | .ok nr1 =>
      match edgeResolve nr1 edge_source edge_target node_table_name with
      | .error e => .error e
      | .ok Option.none => .ok Option.none
      | .ok (some nr2) => .ok (some (coercePass R row cols nr2))

/-- One operation issued to the backing store, in program order. The store
itself (`Table.objects.create`, `TableTypeAnnotation.objects.bulk_create`,
`Table.put_rows`) is an external collaborator per the spec, so the embedding
records the calls rather than their effects. -/
inductive StoreOp where
  | createTable (name : String) (edge : Bool) (workspace : String)
  | writeAnnots (annots : List (String × TTAType))
  | putRows (docs : List Doc)

/-- Lines 74–77: `reversed_cols = {v: k for k, v in column_types.items()}`
followed by `.get(t)`; with several columns of the same type the
comprehension keeps the last column name. -/
def reversedColsGet (column_types : List (String × TTAType)) (t : TTAType) :
    Option String :=
  (column_types.reverse.find? (fun p => p.2 == t)).map (fun p => p.1)

/-- Lines 79–86: copy `column_types` and rename the primary-key column to
`_key` and the endpoint columns to `_from`/`_to` (pop, then assign). In
`process_single_table` the popped keys always come from `reversed_cols`, so
the `KeyError` branch of those pops is unreachable and the `.getD` defaults
below are never read. -/
def typeAnnotationCols (column_types : List (String × TTAType))
    (primary_key edge_source edge_target : Option String) :
    List (String × TTAType) :=
  let tac := column_types
  let tac :=
    match primary_key with
    | some pk =>
      if pk = "" then tac
      else dictSet (dictErase tac pk) "_key" ((dictFind? tac pk).getD .label)
    | Option.none => tac
  match edge_source, edge_target with
  | some es, some et =>
    if es = "" ∨ et = "" then tac
    else
      let tf := dictSet (dictErase tac es) "_from" ((dictFind? tac es).getD .label)
      dictSet (dictErase tf et) "_to" ((dictFind? tf et).getD .label)
  | _, _ => tac

/-- Lines 93–109: the accepted-row buffer loop of `process_single_table`.
Returns the bulk document writes it performs, in order, and the exception (if
any) that aborted it; an exception aborts the loop before the final flush,
while normal exhaustion always flushes the remaining buffer (line 109), even
when it is empty. -/
def ingestRows (R : PyRuntime) (column_types : List (String × TTAType))
    (primary_key edge_source edge_target node_table_name : Option String) :
    List Row → List Doc → List StoreOp × Option PyErr
  | [], processed_rows => ([.putRows processed_rows], Option.none)
  | row :: rest, processed_rows =>
    match process_row R row column_types primary_key edge_source edge_target
        node_table_name with
    | .error e => ([], some e)
    | .ok Option.none =>
      ingestRows R column_types primary_key edge_source edge_target
        node_table_name rest processed_rows
    | .ok (some new_row) =>
      let processed_rows := processed_rows ++ [new_row]
      if processed_rows.length = 100000 then
        let next := ingestRows R column_types primary_key edge_source
          edge_target node_table_name rest []
        (.putRows processed_rows :: next.1, next.2)
      else
        ingestRows R column_types primary_key edge_source edge_target
          node_table_name rest processed_rows

/-- `process_single_table`: the full sequence of store operations, in program
order, and the exception (if any) the call raises. -/
def process_single_table (R : PyRuntime) (row_data : List Row)
    (table_name : String) (workspace : String) (edge : Bool)
    (column_types : List (String × TTAType))
    (node_table_name : Option String) : List StoreOp × Option PyErr :=
  let primary_key := reversedColsGet column_types .primary
  let edge_source := reversedColsGet column_types .source
  let edge_target := reversedColsGet column_types .target
  let tac := typeAnnotationCols column_types primary_key edge_source edge_target
  let run := ingestRows R column_types primary_key edge_source edge_target
    node_table_name row_data []
  (.createTable table_name edge workspace :: .writeAnnots tac :: run.1, run.2)

/-- The sizes of the bulk document writes in a store-operation trace. -/
def putRowsSizes (ops : List StoreOp) : List Nat :=
  ops.filterMap (fun op =>
    match op with
    | .putRows docs => some docs.length
    | _ => Option.none)

/-- All documents written by the bulk document writes of a trace, in order. -/
def putRowsDocs (ops : List StoreOp) : List Doc :=
  (ops.filterMap (fun op =>
    match op with
    | .putRows docs => some docs
    | _ => Option.none)).flatten

/-- The accepted-document view of one row: `some` exactly when `process_row`
accepts the row. -/
def acceptedDoc (R : PyRuntime) (cols : List (String × TTAType))
    (primary_key edge_source edge_target node_table_name : Option String)
    (row : Row) : Option Doc :=
  match process_row R row cols primary_key edge_source edge_target
      node_table_name with
  | .ok (some d) => some d
  | _ => Option.none

/-- The batching discipline in isolation: append each document to the
buffer, emit the buffer when it reaches the threshold, and emit the
remaining buffer at the end. -/
def batchWrites (t : Nat) : List Doc → List Doc → List (List Doc)
  | buf, [] => [buf]
  | buf, d :: rest =>
    let buf' := buf ++ [d]
    if buf'.length = t then buf' :: batchWrites t [] rest
    else batchWrites t buf' rest

/-- Modelled from the spec: the `Upload` model (in `multinet/api/models`,
outside the analysed sources) carries a status among PENDING, RUNNING,
FINISHED, FAILED. -/
inductive UploadStatus where
  | pending
  | running
  | finished
  | failed
deriving DecidableEq, Repr

/-- Modelled from the spec: the persisted fields of an ingestion job that the
lifecycle operations touch — the status and the lazily initialised ordered
list of error messages. -/
structure Upload where
  status : UploadStatus
  error_messages : Option (List String)
deriving DecidableEq, Repr

/-- `fail_upload_with_message` from `multinet/api/tasks/process/utils.py`:
set the status to FAILED and append the message (initialising the list when
it is still `None`), unconditionally. -/
def fail_upload_with_message (upload : Upload) (message : String) : Upload :=
  { status := UploadStatus.failed
    error_messages :=
      some (match upload.error_messages with
        | Option.none => [message]
        | some ms => ms ++ [message]) }

/-- `complete_upload`: set the status to FINISHED, unconditionally. -/
def complete_upload (upload : Upload) : Upload :=
  { upload with status := UploadStatus.finished }

/-- A heap object referenced by a dict variable of `process_row`: the raw
input row or the working document. -/
inductive Obj where
  | rowObj (r : Row)
  | docObj (d : Doc)

/-- A tiny heap of Python objects: addresses are list positions, allocation
appends. -/
abbrev Heap := List Obj

/-- Allocate a fresh object, returning its address. -/
def heapAlloc (h : Heap) (o : Obj) : Nat × Heap := (h.length, h ++ [o])

/-- The row object at an address (queried only at row addresses). -/
def heapRow (h : Heap) (a : Nat) : Row :=
  match h[a]? with
  | some (.rowObj r) => r
  | _ => []

/-- The document object at an address (queried only at doc addresses). -/
def heapDoc (h : Heap) (a : Nat) : Doc :=
  match h[a]? with
  | some (.docObj d) => d
  | _ => []

/-- Mutate the document stored at an address. -/
def heapWriteDoc (h : Heap) (b : Nat) (f : Doc → Doc) : Heap :=
  h.set b (.docObj (f (heapDoc h b)))

/-- `process_row` at the heap level: the input row is passed by reference at
address `a`; `dict(row)` allocates the working document, and every mutation
in the body targets that fresh address only, via `heapWriteDoc`. The steps
are the same `keyRename`, `edgeResolve` and `coercePass` as in
`process_row`, applied to the document behind the reference; the coercion
pass reads its cells from the original row at `a`. -/
def processRowH (R : PyRuntime) (h : Heap) (a : Nat)
    (cols : List (String × TTAType))
    (primary_key edge_source edge_target node_table_name : Option String) :
    Except PyErr (Option Nat) × Heap :=
  let alloc := heapAlloc h (.docObj (copyRow (heapRow h a)))
  let b := alloc.1
  let h1 := alloc.2
  if ¬ (pyTruthy (docGet (heapDoc h1 b) primary_key) ||
        (pyTruthy (docGet (heapDoc h1 b) edge_source) &&
         pyTruthy (docGet (heapDoc h1 b) edge_target))) then
    (.ok Option.none, h1)
  else
    match keyRename (heapDoc h1 b) primary_key with
    | .error e => (.error e, h1)
    | .ok nr1 =>
      let h2 := heapWriteDoc h1 b (fun _ => nr1)
      match edgeResolve (heapDoc h2 b) edge_source edge_target node_table_name with
      | .error e => (.error e, h2)
      | .ok Option.none => (.ok Option.none, h2)
      | .ok (some nr2) =>
        let h3 := heapWriteDoc h2 b (fun _ => nr2)
        let h4 := heapWriteDoc h3 b (fun d => coercePass R (heapRow h3 a) cols d)
        (.ok (some b), h4)

/-- A concrete runtime for evaluating the embedding on closed inputs whose
paths never reach a date or number coercion. -/
def R0 : PyRuntime where
  DT := Nat
  floatOfStr := fun _ => Option.none
  intOfStr := fun _ => Option.none
  fromtimestamp := fun _ => Option.none
  isoformat := fun _ => ""
  dateutilParse := fun _ => Option.none

/-- A concrete runtime whose parsers recognise the literal inputs used by
the date-cascade witness. -/
def R1 : PyRuntime where
  DT := Nat
  floatOfStr := fun s => if s = "0" then some 0.0 else Option.none
  intOfStr := fun _ => Option.none
  fromtimestamp := fun _ => some 0
  isoformat := fun d => "1970-01-01T00:00:00+" ++ toString d
  dateutilParse := fun s => if s = "2021-01-01" then some 1 else Option.none

/-! Dictionary lemmas. -/

theorem dictFind?_copyRow (r : Row) (k : String) :
    dictFind? (copyRow r) k = (dictFind? r k).map cellVal := by
  induction r with
  | nil => rfl
  | cons p rest ih =>
    obtain ⟨k', v⟩ := p
    by_cases hk : k' = k
    · simp [copyRow, dictFind?, hk]
    · simpa [copyRow, dictFind?, hk] using ih

theorem dictFind?_dictSet_self {α : Type} (d : List (String × α)) (k : String)
    (v : α) : dictFind? (dictSet d k v) k = some v := by
  induction d with
  | nil => simp [dictSet, dictFind?]
  | cons p rest ih =>
    obtain ⟨k', v'⟩ := p
    by_cases hk : k' = k <;> simp [dictSet, dictFind?, hk, ih]

theorem dictFind?_dictSet_ne {α : Type} (d : List (String × α))
    {k' k : String} (v : α) (h : k' ≠ k) :
    dictFind? (dictSet d k' v) k = dictFind? d k := by
  induction d with
  | nil => simp [dictSet, dictFind?, h]
  | cons p rest ih =>
    obtain ⟨a, b⟩ := p
    by_cases ha : a = k'
    · simp [dictSet, dictFind?, ha, h, Ne.symm h]
    · by_cases hak : a = k
      · simp [dictSet, dictFind?, ha, hak, Ne.symm h]
      · simp [dictSet, dictFind?, ha, hak, ih]

theorem dictFind?_dictErase_ne {α : Type} (d : List (String × α))
    {k' k : String} (h : k' ≠ k) :
    dictFind? (dictErase d k') k = dictFind? d k := by
  induction d with
  | nil => simp [dictErase]
  | cons p rest ih =>
    obtain ⟨a, b⟩ := p
    by_cases ha : a = k'
    · simp [dictErase, dictFind?, ha, h, Ne.symm h]
    · by_cases hak : a = k
      · simp [dictErase, dictFind?, ha, hak, Ne.symm h]
      · simp [dictErase, dictFind?, ha, hak, ih]

theorem coerceStep_find?_of_absent (R : PyRuntime) (row : Row) (init : Doc)
    (p : String × TTAType) (k : String)
    (hk : dictFind? row k = Option.none) :
    dictFind? (coerceStep R row init p) k = dictFind? init k := by
  rcases hfp : dictFind? row p.1 with _ | c
  · simp [coerceStep, hfp]
  · rcases c with _ | s
    · simp [coerceStep, hfp]
    · have hne : p.1 ≠ k := fun heq => by rw [heq, hk] at hfp; cases hfp
      rcases hpd : processor_dict R p.2 with _ | f
      · simp [coerceStep, hfp, hpd]
      · rcases hfs : f s with e | v
        · simp [coerceStep, hfp, hpd, hfs]
        · simp only [coerceStep, hfp, hpd, hfs]
          exact dictFind?_dictSet_ne init v hne

theorem coercePass_find?_of_absent (R : PyRuntime) (row : Row)
    (cols : List (String × TTAType)) (init : Doc) (k : String)
    (hk : dictFind? row k = Option.none) :
    dictFind? (coercePass R row cols init) k = dictFind? init k := by
  induction cols generalizing init with
  | nil => rfl
  | cons p rest ih =>
    rw [show coercePass R row (p :: rest) init =
        coercePass R row rest (coerceStep R row init p) from rfl, ih]
    exact coerceStep_find?_of_absent R row init p k hk

/-! Claims about the upload lifecycle and the coercion cascades. -/

/-- C9 counterexample: calling `fail_upload_with_message` on an upload that
is already FINISHED (a terminal state) flips its status to FAILED and
appends a message, and `complete_upload` on a FAILED upload flips it to
FINISHED; terminal states are not immutable under the lifecycle
operations. -/
theorem fail_upload_mutates_terminal :
    fail_upload_with_message
        { status := UploadStatus.finished, error_messages := Option.none }
        "boom" =
      { status := UploadStatus.failed, error_messages := some ["boom"] } ∧
    complete_upload
        { status := UploadStatus.failed, error_messages := some ["x"] } =
      { status := UploadStatus.finished, error_messages := some ["x"] } :=
  ⟨rfl, rfl⟩

/-- C9 amended: the lifecycle operations do not guard on the current state:
`fail_upload_with_message` always sets the status to FAILED and appends its
message (initialising the list when it is `None`), and `complete_upload`
always sets the status to FINISHED leaving the messages unchanged — also
when the upload is already in a terminal state. -/
theorem upload_lifecycle_unconditional :
    ∀ (u : Upload) (m : String),
      (fail_upload_with_message u m).status = UploadStatus.failed ∧
      (fail_upload_with_message u m).error_messages =
        some (u.error_messages.getD [] ++ [m]) ∧
      (complete_upload u).status = UploadStatus.finished ∧
      (complete_upload u).error_messages = u.error_messages := by
  intro u m
  refine ⟨rfl, ?_, rfl, rfl⟩
  rcases h : u.error_messages with _ | ms <;>
    simp [fail_upload_with_message, h]

/-- C6 counterexample: the boolean cascade in the code compares
case-sensitively, so the claimed case-insensitive match of "yes" fails on
"Yes": `str_to_bool` raises `ValueError` instead of returning true. -/
theorem str_to_bool_Yes_raises :
    str_to_bool "Yes" = .error .valueError ∧
    str_to_bool "Yes" ≠ .ok true := by
  refine ⟨rfl, ?_⟩
  intro hcontra
  rw [show str_to_bool "Yes" = .error .valueError from rfl] at hcontra
  cases hcontra

/-- C6 amended: the boolean cascade matches exactly the eight lowercase
literals — '0' to false and '1' to true (integer cast), 'true'/'false' to
the literal boolean, 'yes'/'on' to true and 'no'/'off' to false — with the
first matching caster winning; every other string, including other casings
and in particular "maybe", raises `ValueError`, and `process_row` then keeps
the original string in the normalized document. -/
theorem str_to_bool_cascade :
    str_to_bool "0" = .ok false ∧ str_to_bool "1" = .ok true ∧
    str_to_bool "true" = .ok true ∧ str_to_bool "false" = .ok false ∧
    str_to_bool "yes" = .ok true ∧ str_to_bool "on" = .ok true ∧
    str_to_bool "no" = .ok false ∧ str_to_bool "off" = .ok false ∧
    (∀ s : String,
      s ∉ (["0", "1", "true", "false", "yes", "on", "no", "off"] :
        List String) →
      str_to_bool s = .error .valueError) ∧
    process_row R0 [("id", some "1"), ("b", some "maybe")]
        [("id", TTAType.primary), ("b", TTAType.boolean)]
        (some "id") Option.none Option.none Option.none =
      .ok (some [("b", PyVal.str "maybe"), ("_key", PyVal.str "1")]) := by
  refine ⟨rfl, rfl, rfl, rfl, rfl, rfl, rfl, rfl, ?_, rfl⟩
  intro s hs
  simp only [List.mem_cons, List.mem_singleton, not_or] at hs
  obtain ⟨h0, h1, ht, hf, hy, hon, hn, hoff⟩ := hs
  simp [str_to_bool, h0, h1, ht, hf, hy, hon, hn, hoff]

/-- Witness for the boolean-cascade theorem at the concrete input
"maybe". -/
theorem str_to_bool_cascade_witness :
    str_to_bool "maybe" = .error .valueError :=
  str_to_bool_cascade.2.2.2.2.2.2.2.2.1 "maybe" (by decide)

/-- C7: the date cascade first interprets the string as a floating-point
Unix timestamp (float parse, then `fromtimestamp`) and serializes it with
`isoformat`; when that path raises `ValueError` it falls back to the general
date parse, also serialized with `isoformat`; when both fail it raises
`ValueError`; and every successful output is an `isoformat` serialization,
never the original string form. -/
theorem str_to_datestr_cascade :
    (∀ (R : PyRuntime) (e : String) (x : Float) (d : R.DT),
      R.floatOfStr e = some x → R.fromtimestamp x = some d →
      str_to_datestr R e = .ok (R.isoformat d)) ∧
    (∀ (R : PyRuntime) (e : String) (d : R.DT),
      (R.floatOfStr e).bind R.fromtimestamp = Option.none →
      R.dateutilParse e = some d →
      str_to_datestr R e = .ok (R.isoformat d)) ∧
    (∀ (R : PyRuntime) (e : String),
      (R.floatOfStr e).bind R.fromtimestamp = Option.none →
      R.dateutilParse e = Option.none →
      str_to_datestr R e = .error .valueError) ∧
    (∀ (R : PyRuntime) (e s : String),
      str_to_datestr R e = .ok s → ∃ d : R.DT, s = R.isoformat d) := by
  refine ⟨?_, ?_, ?_, ?_⟩
  · intro R e x d hx hd
    simp [str_to_datestr, hx, hd]
  · intro R e d hts hp
    simp [str_to_datestr, hts, hp]
  · intro R e hts hp
    simp [str_to_datestr, hts, hp]
  · intro R e s h
    unfold str_to_datestr at h
    rcases hts : (R.floatOfStr e).bind R.fromtimestamp with _ | d
    · rw [hts] at h
      rcases hp : R.dateutilParse e with _ | d2
      · rw [hp] at h
        cases h
      · rw [hp] at h
        refine ⟨d2, ?_⟩
        cases h
        rfl
    · rw [hts] at h
      refine ⟨d, ?_⟩
      cases h
      rfl

/-- Witness for the date-cascade theorem on the concrete runtime `R1`. -/
theorem str_to_datestr_cascade_witness :
    str_to_datestr R1 "0" = .ok (R1.isoformat ((0 : Nat) : R1.DT)) ∧
    str_to_datestr R1 "2021-01-01" = .ok (R1.isoformat ((1 : Nat) : R1.DT)) ∧
    str_to_datestr R1 "nonsense" = .error .valueError ∧
    (∃ d : R1.DT,
      R1.isoformat ((0 : Nat) : R1.DT) = R1.isoformat d) :=
  ⟨str_to_datestr_cascade.1 R1 "0" 0.0 ((0 : Nat) : R1.DT) rfl rfl,
   str_to_datestr_cascade.2.1 R1 "2021-01-01" ((1 : Nat) : R1.DT) rfl rfl,
   str_to_datestr_cascade.2.2.1 R1 "nonsense" rfl rfl,
   str_to_datestr_cascade.2.2.2 R1 "0" (R1.isoformat ((0 : Nat) : R1.DT))
     (str_to_datestr_cascade.1 R1 "0" 0.0 ((0 : Nat) : R1.DT) rfl rfl)⟩

/-- C1: a row-level problem can raise out of `process_row` and escape
`process_single_table`: when a primary-key column and both endpoint columns
are declared, a raw row that has endpoint values but lacks the primary-key
column passes the acceptance gate via the endpoints and then hits
`new_row.pop(primary_key)`, which raises `KeyError`; no handler in the
pipeline catches it. -/
theorem process_row_keyerror_escapes :
    process_row R0 [("s", some "n/a"), ("t", some "n/b")]
        [("id", TTAType.primary), ("s", TTAType.source), ("t", TTAType.target)]
        (some "id") (some "s") (some "t") Option.none =
      .error (.keyError "id") ∧
    (process_single_table R0 [[("s", some "n/a"), ("t", some "n/b")]]
        "tbl" "ws" true
        [("id", TTAType.primary), ("s", TTAType.source), ("t", TTAType.target)]
        Option.none).2 = some (.keyError "id") :=
  ⟨rfl, rfl⟩

/-! Batch-loader lemmas. -/

theorem ingestRows_ops_putRows (R : PyRuntime)
    (cols : List (String × TTAType)) (pk es et ntn : Option String)
    (rows : List Row) (buf : List Doc) :
    ∀ op ∈ (ingestRows R cols pk es et ntn rows buf).1,
      ∃ docs, op = StoreOp.putRows docs := by
  induction rows generalizing buf with
  | nil =>
    intro op hop
    simp only [ingestRows, List.mem_singleton] at hop
    exact ⟨buf, hop⟩
  | cons row rest ih =>
    intro op hop
    rcases hpr : process_row R row cols pk es et ntn with e | o
    · simp [ingestRows, hpr] at hop
    · rcases o with _ | d
      · rw [show ingestRows R cols pk es et ntn (row :: rest) buf =
            ingestRows R cols pk es et ntn rest buf from by
          simp [ingestRows, hpr]] at hop
        exact ih buf op hop
      · by_cases hlen : (buf ++ [d]).length = 100000
        · rw [show ingestRows R cols pk es et ntn (row :: rest) buf =
              (StoreOp.putRows (buf ++ [d]) ::
                (ingestRows R cols pk es et ntn rest []).1,
               (ingestRows R cols pk es et ntn rest []).2) from by
            simp [ingestRows, hpr, hlen]] at hop
          rcases List.mem_cons.mp hop with hop | hop

          · exact ⟨buf ++ [d], hop⟩
          · exact ih [] op hop
        · rw [show ingestRows R cols pk es et ntn (row :: rest) buf =
              ingestRows R cols pk es et ntn rest (buf ++ [d]) from by
            simp [ingestRows, hpr,
              show ¬ buf.length = 99999 from by simpa using hlen]] at hop
          exact ih (buf ++ [d]) op hop

theorem ingestRows_mem_docs (R : PyRuntime)
    (cols : List (String × TTAType)) (pk es et ntn : Option String)
    (rows : List Row) (buf : List Doc) (docs : List Doc) (d : Doc) :
    StoreOp.putRows docs ∈ (ingestRows R cols pk es et ntn rows buf).1 →
    d ∈ docs →
    d ∈ buf ∨ ∃ row ∈ rows,
      process_row R row cols pk es et ntn = .ok (some d) := by
  induction rows generalizing buf with
  | nil =>
    intro hmem hd
    simp only [ingestRows, List.mem_singleton] at hmem
    obtain rfl : docs = buf := by injection hmem
    exact Or.inl hd
  | cons row rest ih =>
    intro hmem hd
    rcases hpr : process_row R row cols pk es et ntn with e | o
    · simp [ingestRows, hpr] at hmem
    · rcases o with _ | d'
      · rw [show ingestRows R cols pk es et ntn (row :: rest) buf =
            ingestRows R cols pk es et ntn rest buf from by
          simp [ingestRows, hpr]] at hmem
        rcases ih buf hmem hd with h | ⟨r, hr, hpr'⟩
        · exact Or.inl h
        · exact Or.inr ⟨r, List.mem_cons_of_mem row hr, hpr'⟩
      · have hsplit : d ∈ buf ++ [d'] →
            d ∈ buf ∨ ∃ r ∈ row :: rest,
              process_row R r cols pk es et ntn = .ok (some d) := by
          intro hdb
          rcases List.mem_append.mp hdb with h | h
          · exact Or.inl h
          · rcases List.mem_singleton.mp h with rfl
            exact Or.inr ⟨row, List.mem_cons_self row rest, hpr⟩
        by_cases hlen : (buf ++ [d']).length = 100000
        · rw [show ingestRows R cols pk es et ntn (row :: rest) buf =
              (StoreOp.putRows (buf ++ [d']) ::
                (ingestRows R cols pk es et ntn rest []).1,
               (ingestRows R cols pk es et ntn rest []).2) from by
            simp [ingestRows, hpr, hlen]] at hmem
          rcases List.mem_cons.mp hmem with heq | hmem'
          · obtain rfl : docs = buf ++ [d'] := by injection heq
            exact hsplit hd
          · rcases ih [] hmem' hd with h | ⟨r, hr, hpr'⟩
            · exact absurd h (List.not_mem_nil d)
            · exact Or.inr ⟨r, List.mem_cons_of_mem row hr, hpr'⟩
        · rw [show ingestRows R cols pk es et ntn (row :: rest) buf =
              ingestRows R cols pk es et ntn rest (buf ++ [d']) from by
            simp [ingestRows, hpr,
              show ¬ buf.length = 99999 from by simpa using hlen]] at hmem
          rcases ih (buf ++ [d']) hmem hd with h | ⟨r, hr, hpr'⟩
          · exact hsplit h
          · exact Or.inr ⟨r, List.mem_cons_of_mem row hr, hpr'⟩

/-- C8 counterexample: with no default node table supplied, an edge row
whose fully-qualified endpoint contains more than one separator is rejected
by the line-37 check; the claim that this check only runs when a default
table is supplied is false. -/
theorem process_row_multislash_rejected :
    process_row R0 [("s", some "a/b/c"), ("t", some "x/y")]
        [("s", TTAType.source), ("t", TTAType.target)]
        Option.none (some "s") (some "t") Option.none = .ok Option.none :=
  rfl

theorem batchWrites_map_length (t : Nat) (docs : List Doc) :
    ∀ buf : List Doc, 0 < t → buf.length < t →
      (batchWrites t buf docs).map List.length =
        List.replicate ((buf.length + docs.length) / t) t ++
          [(buf.length + docs.length) % t] := by
  induction docs with
  | nil =>
    intro buf ht hb
    simp [batchWrites, Nat.div_eq_of_lt hb, Nat.mod_eq_of_lt hb]
  | cons d rest ih =>
    intro buf ht hb
    by_cases hlen : (buf ++ [d]).length = t
    · rw [show batchWrites t buf (d :: rest) =
          (buf ++ [d]) :: batchWrites t [] rest from by
        simp only [batchWrites, hlen, if_pos]]
      rw [List.map_cons, ih [] ht (by simpa using ht)]
      have hbl : buf.length + (d :: rest).length = rest.length + t := by
        have h1 : buf.length + 1 = t := by simpa using hlen
        simp only [List.length_cons]
        omega
      rw [hbl, Nat.add_div_right _ ht, Nat.add_mod_right,
        List.replicate_succ]
      have hdl : (buf ++ [d]).length = t := hlen
      simp [hdl]
    · have hlb : (buf ++ [d]).length = buf.length + 1 := by simp
      have hlt : (buf ++ [d]).length < t := by omega
      rw [show batchWrites t buf (d :: rest) =
          batchWrites t (buf ++ [d]) rest from by
        simp only [batchWrites, hlen, if_neg, if_false]]
      rw [ih (buf ++ [d]) ht hlt]
      have hAB : (buf ++ [d]).length + rest.length =
          buf.length + (d :: rest).length := by
        have h1 : (buf ++ [d]).length = buf.length + 1 := by simp
        have h2 : (d :: rest).length = rest.length + 1 := rfl
        omega
      rw [hAB]

theorem batchWrites_flatten (t : Nat) (docs : List Doc) :
    ∀ buf : List Doc, (batchWrites t buf docs).flatten = buf ++ docs := by
  induction docs with
  | nil => intro buf; simp [batchWrites]
  | cons d rest ih =>
    intro buf
    by_cases hlen : (buf ++ [d]).length = t
    · rw [show batchWrites t buf (d :: rest) =
          (buf ++ [d]) :: batchWrites t [] rest from by
        simp only [batchWrites, hlen, if_pos]]
      simp [ih]
    · rw [show batchWrites t buf (d :: rest) =
          batchWrites t (buf ++ [d]) rest from by
        simp only [batchWrites, hlen, if_neg, if_false]]
      simp [ih]

theorem ingestRows_eq_batchWrites (R : PyRuntime)
    (cols : List (String × TTAType)) (pk es et ntn : Option String)
    (rows : List Row) :
    ∀ buf : List Doc,
      (∀ row ∈ rows, ∀ e,
        process_row R row cols pk es et ntn ≠ .error e) →
      ingestRows R cols pk es et ntn rows buf =
        ((batchWrites 100000 buf
            (rows.filterMap (acceptedDoc R cols pk es et ntn))).map
          StoreOp.putRows,
         Option.none) := by
  induction rows with
  | nil => intro buf hok; simp [ingestRows, batchWrites]
  | cons row rest ih =>
    intro buf hok
    have hok' : ∀ r ∈ rest, ∀ e,
        process_row R r cols pk es et ntn ≠ .error e :=
      fun r hr => hok r (List.mem_cons_of_mem row hr)
    rcases hpr : process_row R row cols pk es et ntn with e | o
    · exact absurd hpr (hok row (List.mem_cons_self row rest) e)
    · rcases o with _ | d
      · rw [show ingestRows R cols pk es et ntn (row :: rest) buf =
            ingestRows R cols pk es et ntn rest buf from by
          simp [ingestRows, hpr]]
        rw [ih buf hok']
        rw [show (row :: rest).filterMap (acceptedDoc R cols pk es et ntn) =
            rest.filterMap (acceptedDoc R cols pk es et ntn) from by
          simp [List.filterMap_cons, acceptedDoc, hpr]]
      · rw [show (row :: rest).filterMap (acceptedDoc R cols pk es et ntn) =
            d :: rest.filterMap (acceptedDoc R cols pk es et ntn) from by
          simp [List.filterMap_cons, acceptedDoc, hpr]]
        by_cases hlen : (buf ++ [d]).length = 100000
        · rw [show ingestRows R cols pk es et ntn (row :: rest) buf =
              (StoreOp.putRows (buf ++ [d]) ::
                (ingestRows R cols pk es et ntn rest []).1,
               (ingestRows R cols pk es et ntn rest []).2) from by
            simp [ingestRows, hpr, hlen]]
          rw [show batchWrites 100000 buf
              (d :: rest.filterMap (acceptedDoc R cols pk es et ntn)) =
              (buf ++ [d]) :: batchWrites 100000 []
                (rest.filterMap (acceptedDoc R cols pk es et ntn)) from by
            simp only [batchWrites, hlen, if_pos]]
          rw [ih [] hok']
          rfl
        · rw [show ingestRows R cols pk es et ntn (row :: rest) buf =
              ingestRows R cols pk es et ntn rest (buf ++ [d]) from by
            simp [ingestRows, hpr,
              show ¬ buf.length = 99999 from by simpa using hlen]]
          rw [show batchWrites 100000 buf
              (d :: rest.filterMap (acceptedDoc R cols pk es et ntn)) =
              batchWrites 100000 (buf ++ [d])
                (rest.filterMap (acceptedDoc R cols pk es et ntn)) from by
            simp only [batchWrites, hlen, if_neg, if_false]]
          rw [ih (buf ++ [d]) hok']

theorem putRowsSizes_skip_setup (tn ws : String) (edge : Bool)
    (annots : List (String × TTAType)) (rest : List StoreOp) :
    putRowsSizes (StoreOp.createTable tn edge ws ::
      StoreOp.writeAnnots annots :: rest) = putRowsSizes rest := by
  simp [putRowsSizes, List.filterMap_cons]

theorem putRowsDocs_skip_setup (tn ws : String) (edge : Bool)
    (annots : List (String × TTAType)) (rest : List StoreOp) :
    putRowsDocs (StoreOp.createTable tn edge ws ::
      StoreOp.writeAnnots annots :: rest) = putRowsDocs rest := by
  simp [putRowsDocs, List.filterMap_cons]

theorem putRowsSizes_map_putRows (bs : List (List Doc)) :
    putRowsSizes (bs.map StoreOp.putRows) = bs.map List.length := by
  induction bs with
  | nil => rfl
  | cons b rest ih =>
    simp only [List.map_cons, putRowsSizes, List.filterMap_cons] at ih ⊢
    rw [ih]

theorem putRowsDocs_map_putRows (bs : List (List Doc)) :
    putRowsDocs (bs.map StoreOp.putRows) = bs.flatten := by
  induction bs with
  | nil => rfl
  | cons b rest ih =>
    simp only [List.map_cons, putRowsDocs, List.filterMap_cons,
      List.flatten_cons] at ih ⊢
    rw [ih]

theorem filterMap_replicate_of_some {α β : Type} (f : α → Option β) (n : Nat)
    (a : α) (b : β) (h : f a = some b) :
    (List.replicate n a).filterMap f = List.replicate n b := by
  induction n with
  | zero => rfl
  | succ n ih => simp [List.replicate_succ, List.filterMap_cons, h, ih]

/-- C5: in every run of `process_single_table` — also one that later raises —
the store-operation trace starts with the table-creation call, immediately
followed by the single bulk write of the reserved-key remapped type
annotations (primary key renamed to `_key`, endpoints renamed to
`_from`/`_to`), and every later operation is a document batch write: both
setup operations complete before any data batch is sent. -/
theorem process_single_table_setup_first :
    ∀ (R : PyRuntime) (row_data : List Row) (tn ws : String) (edge : Bool)
      (cols : List (String × TTAType)) (ntn : Option String),
      ∃ rest,
        (process_single_table R row_data tn ws edge cols ntn).1 =
          StoreOp.createTable tn edge ws ::
          StoreOp.writeAnnots
            (typeAnnotationCols cols (reversedColsGet cols .primary)
              (reversedColsGet cols .source)
              (reversedColsGet cols .target)) :: rest ∧
        ∀ op ∈ rest, ∃ docs, op = StoreOp.putRows docs := by
  intro R row_data tn ws edge cols ntn
  exact ⟨(ingestRows R cols (reversedColsGet cols .primary)
      (reversedColsGet cols .source) (reversedColsGet cols .target) ntn
      row_data []).1,
    rfl,
    ingestRows_ops_putRows R cols (reversedColsGet cols .primary)
      (reversedColsGet cols .source) (reversedColsGet cols .target) ntn
      row_data []⟩

/-- Witness for the setup-first theorem at a concrete empty run. -/
theorem process_single_table_setup_first_witness :
    ∃ rest,
      (process_single_table R0 [] "t" "w" false [] Option.none).1 =
        StoreOp.createTable "t" false "w" ::
        StoreOp.writeAnnots
          (typeAnnotationCols [] (reversedColsGet [] .primary)
            (reversedColsGet [] .source)
            (reversedColsGet [] .target)) :: rest ∧
      ∀ op ∈ rest, ∃ docs, op = StoreOp.putRows docs :=
  process_single_table_setup_first R0 [] "t" "w" false [] Option.none

/-- C4: when no source row raises and exactly 250000 rows are accepted,
`process_single_table` performs exactly 3 bulk document writes, of sizes
100000, 100000 and 50000; in general the flushed batches, concatenated, are
exactly the accepted documents in input order (the buffer is flushed at
100000 documents and once more after the source is exhausted). -/
theorem process_single_table_batching :
    ∀ (R : PyRuntime) (row_data : List Row) (tn ws : String) (edge : Bool)
      (cols : List (String × TTAType)) (ntn : Option String),
      (∀ row ∈ row_data, ∀ e,
        process_row R row cols (reversedColsGet cols .primary)
          (reversedColsGet cols .source) (reversedColsGet cols .target)
          ntn ≠ .error e) →
      (row_data.filterMap
        (acceptedDoc R cols (reversedColsGet cols .primary)
          (reversedColsGet cols .source) (reversedColsGet cols .target)
          ntn)).length = 250000 →
      putRowsSizes (process_single_table R row_data tn ws edge cols ntn).1 =
          [100000, 100000, 50000] ∧
      putRowsDocs (process_single_table R row_data tn ws edge cols ntn).1 =
          row_data.filterMap
            (acceptedDoc R cols (reversedColsGet cols .primary)
              (reversedColsGet cols .source) (reversedColsGet cols .target)
              ntn) ∧
      (process_single_table R row_data tn ws edge cols ntn).2 =
        Option.none := by
  intro R row_data tn ws edge cols ntn hok hcount
  have hrun := ingestRows_eq_batchWrites R cols
    (reversedColsGet cols .primary) (reversedColsGet cols .source)
    (reversedColsGet cols .target) ntn row_data [] hok
  have hops : (process_single_table R row_data tn ws edge cols ntn).1 =
      StoreOp.createTable tn edge ws ::
      StoreOp.writeAnnots
        (typeAnnotationCols cols (reversedColsGet cols .primary)
          (reversedColsGet cols .source) (reversedColsGet cols .target)) ::
      ((batchWrites 100000 []
          (row_data.filterMap
            (acceptedDoc R cols (reversedColsGet cols .primary)
              (reversedColsGet cols .source) (reversedColsGet cols .target)
              ntn))).map StoreOp.putRows) := by
    show (StoreOp.createTable tn edge ws :: StoreOp.writeAnnots _ ::
      (ingestRows R cols (reversedColsGet cols .primary)
        (reversedColsGet cols .source) (reversedColsGet cols .target) ntn
        row_data []).1) = _
    rw [hrun]
  have herr : (process_single_table R row_data tn ws edge cols ntn).2 =
      Option.none := by
    show (ingestRows R cols (reversedColsGet cols .primary)
      (reversedColsGet cols .source) (reversedColsGet cols .target) ntn
      row_data []).2 = Option.none
    rw [hrun]
  refine ⟨?_, ?_, herr⟩
  · rw [hops, putRowsSizes_skip_setup, putRowsSizes_map_putRows,
      batchWrites_map_length 100000 _ [] (by decide) (by decide), hcount]
    decide
  · rw [hops, putRowsDocs_skip_setup, putRowsDocs_map_putRows,
      batchWrites_flatten]
    rfl

/-- Witness for the batching theorem: 250000 copies of an accepted
single-key row produce writes of sizes 100000, 100000, 50000. -/
theorem process_single_table_batching_witness :
    putRowsSizes (process_single_table R0
        (List.replicate 250000 [("id", some "1")]) "tbl" "ws" false
        [("id", TTAType.primary)] Option.none).1 =
      [100000, 100000, 50000] := by
  have hok : ∀ row ∈ List.replicate 250000 [("id", (some "1" : Cell))],
      ∀ e, process_row R0 row [("id", TTAType.primary)]
        (reversedColsGet [("id", TTAType.primary)] .primary)
        (reversedColsGet [("id", TTAType.primary)] .source)
        (reversedColsGet [("id", TTAType.primary)] .target)
        Option.none ≠ .error e := by
    intro row hrow e
    rw [List.eq_of_mem_replicate hrow]
    intro hcontra
    rw [show process_row R0 [("id", some "1")] [("id", TTAType.primary)]
        (reversedColsGet [("id", TTAType.primary)] .primary)
        (reversedColsGet [("id", TTAType.primary)] .source)
        (reversedColsGet [("id", TTAType.primary)] .target)
        Option.none = .ok (some [("_key", PyVal.str "1")]) from rfl]
      at hcontra
    cases hcontra
  have hcount : ((List.replicate 250000
      [("id", (some "1" : Cell))]).filterMap
      (acceptedDoc R0 [("id", TTAType.primary)]
        (reversedColsGet [("id", TTAType.primary)] .primary)
        (reversedColsGet [("id", TTAType.primary)] .source)
        (reversedColsGet [("id", TTAType.primary)] .target)
        Option.none)).length = 250000 := by
    rw [filterMap_replicate_of_some
      (acceptedDoc R0 [("id", TTAType.primary)]
        (reversedColsGet [("id", TTAType.primary)] .primary)
        (reversedColsGet [("id", TTAType.primary)] .source)
        (reversedColsGet [("id", TTAType.primary)] .target)
        Option.none) 250000 [("id", (some "1" : Cell))]
      [("_key", PyVal.str "1")] rfl, List.length_replicate]
  exact (process_single_table_batching R0 _ "tbl" "ws" false
    [("id", TTAType.primary)] Option.none hok hcount).1

/-- C2: a raw row with neither a truthy cell in the declared primary-key
column nor truthy cells in both declared endpoint columns is skipped with
`return None` and no exception; and every document appearing in any bulk
document write of `process_single_table` is the accepted `process_row`
result of some source row, so rejected rows never reach the store. -/
theorem process_row_gate :
    (∀ (R : PyRuntime) (row : Row) (cols : List (String × TTAType))
       (pk es et ntn : Option String),
      ¬ (pyTruthy (docGet (copyRow row) pk) ||
         (pyTruthy (docGet (copyRow row) es) &&
          pyTruthy (docGet (copyRow row) et))) →
      process_row R row cols pk es et ntn = .ok Option.none) ∧
    (∀ (R : PyRuntime) (row_data : List Row) (tn ws : String) (edge : Bool)
       (cols : List (String × TTAType)) (ntn : Option String)
       (docs : List Doc) (d : Doc),
      StoreOp.putRows docs ∈
        (process_single_table R row_data tn ws edge cols ntn).1 →
      d ∈ docs →
      ∃ row ∈ row_data,
        process_row R row cols (reversedColsGet cols .primary)
          (reversedColsGet cols .source) (reversedColsGet cols .target)
          ntn = .ok (some d)) := by
  constructor
  · intro R row cols pk es et ntn h
    simp only [process_row]
    rw [if_pos h]
  · intro R row_data tn ws edge cols ntn docs d hmem hd
    have hmem' : StoreOp.putRows docs ∈
        (ingestRows R cols (reversedColsGet cols .primary)
          (reversedColsGet cols .source) (reversedColsGet cols .target) ntn
          row_data []).1 := by
      have : (process_single_table R row_data tn ws edge cols ntn).1 =
          StoreOp.createTable tn edge ws :: StoreOp.writeAnnots _ ::
          (ingestRows R cols (reversedColsGet cols .primary)
            (reversedColsGet cols .source) (reversedColsGet cols .target)
            ntn row_data []).1 := rfl
      rw [this] at hmem
      rcases List.mem_cons.mp hmem with heq | hmem2
      · cases heq
      · rcases List.mem_cons.mp hmem2 with heq | hmem3
        · cases heq
        · exact hmem3
    rcases ingestRows_mem_docs R cols (reversedColsGet cols .primary)
      (reversedColsGet cols .source) (reversedColsGet cols .target) ntn
      row_data [] docs d hmem' hd with h | h
    · exact absurd h (List.not_mem_nil d)
    · exact h

/-- Witness for the acceptance-gate theorem: a row with no usable key is
skipped, and the one accepted document of a one-row run originates from
that row. -/
theorem process_row_gate_witness :
    process_row R0 [("x", some "v")] [] Option.none Option.none Option.none
        Option.none = .ok Option.none ∧
    ∃ row ∈ [[("id", (some "1" : Cell))]],
      process_row R0 row [("id", TTAType.primary)]
        (reversedColsGet [("id", TTAType.primary)] .primary)
        (reversedColsGet [("id", TTAType.primary)] .source)
        (reversedColsGet [("id", TTAType.primary)] .target)
        Option.none = .ok (some [("_key", PyVal.str "1")]) := by
  constructor
  · exact process_row_gate.1 R0 [("x", some "v")] [] Option.none Option.none
      Option.none Option.none (by decide)
  · exact process_row_gate.2 R0 [[("id", (some "1" : Cell))]] "tbl" "ws"
      false [("id", TTAType.primary)] Option.none
      [[("_key", PyVal.str "1")]] [("_key", PyVal.str "1")]
      (List.Mem.tail _ (List.Mem.tail _ (List.Mem.head _)))
      (List.Mem.head _)

/-! Edge-endpoint resolution lemmas. -/

theorem resolveEndpoint_not_truthy (ntn : Option String) (s : String)
    (h : ¬ strTruthy ntn) : resolveEndpoint ntn s = s := by
  simp [resolveEndpoint, h]

theorem resolveEndpoint_qualifies (n s : String) (hn : n ≠ "")
    (hs : hasSlash s = false) :
    resolveEndpoint (some n) s = n ++ "/" ++ s := by
  simp [resolveEndpoint, hs, strTruthy, hn]

theorem keyRename_run (new_row : Doc) (pk : Option String)
    (hpk : ∀ p, pk = some p → p ≠ "" → (dictFind? new_row p).isSome) :
    ∃ nr1, keyRename new_row pk = .ok nr1 ∧
      ∀ k, k ≠ "_key" → (∀ p, pk = some p → p ≠ "" → p ≠ k) →
        dictFind? nr1 k = dictFind? new_row k := by
  cases pk with
  | none => exact ⟨new_row, rfl, fun k _ _ => rfl⟩
  | some p =>
    by_cases hp : p = ""
    · refine ⟨new_row, ?_, fun k _ _ => rfl⟩
      simp [keyRename, hp]
    · obtain ⟨v, hv⟩ := Option.isSome_iff_exists.mp (hpk p rfl hp)
      refine ⟨dictSet (dictErase new_row p) "_key" (.str (pyStr v)), ?_, ?_⟩
      · simp [keyRename, hp, dictPop, hv, Except.map]
      · intro k hk hpkk
        rw [dictFind?_dictSet_ne _ _ (fun h => hk h.symm)]
        exact dictFind?_dictErase_ne _ (hpkk p rfl hp)

/-- Symbolic run of `process_row` on a well-formed edge row: the acceptance
gate passes, the key rename and both endpoint pops succeed, and the result
is decided by the three endpoint checks of lines 22–38, with the final
document holding the resolved endpoints under `_from`/`_to`. -/
theorem process_row_edge_run (R : PyRuntime) (row : Row)
    (cols : List (String × TTAType)) (pk ntn : Option String)
    (es et sf st : String)
    (hesne : es ≠ "") (hetne : et ≠ "") (hneq : es ≠ et)
    (hesk : es ≠ "_key") (hetk : et ≠ "_key") (hetf : et ≠ "_from")
    (hsf : dictFind? row es = some (some sf)) (hsfne : sf ≠ "")
    (hst : dictFind? row et = some (some st)) (hstne : st ≠ "")
    (hpk : ∀ p, pk = some p → p ≠ "" →
      ((dictFind? row p).isSome ∧ p ≠ es ∧ p ≠ et)) :
    ∃ r6 : Doc,
      dictFind? r6 "_from" = some (.str (resolveEndpoint ntn sf)) ∧
      dictFind? r6 "_to" = some (.str (resolveEndpoint ntn st)) ∧
      process_row R row cols pk (some es) (some et) ntn =
        (if (¬ hasSlash sf ∧ ¬ strTruthy ntn) ∨
            (¬ hasSlash st ∧ ¬ strTruthy ntn) then .ok Option.none
         else if strTruthy ntn ∧
            (splitHead (resolveEndpoint ntn st) ≠ ntn.getD "" ∨
             splitHead (resolveEndpoint ntn sf) ≠ ntn.getD "") then
           .ok Option.none
         else if (splitSlash (resolveEndpoint ntn sf)).length > 2 ∨
            (splitSlash (resolveEndpoint ntn st)).length > 2 then
           .ok Option.none
         else .ok (some (coercePass R row cols r6))) := by
  have hcf : dictFind? (copyRow row) es = some (.str sf) := by
    rw [dictFind?_copyRow, hsf]; rfl
  have hct : dictFind? (copyRow row) et = some (.str st) := by
    rw [dictFind?_copyRow, hst]; rfl
  have hpk' : ∀ p, pk = some p → p ≠ "" →
      (dictFind? (copyRow row) p).isSome := by
    intro p hp hpne
    rw [dictFind?_copyRow]
    rcases Option.isSome_iff_exists.mp (hpk p hp hpne).1 with ⟨c, hc⟩
    simp [hc]
  obtain ⟨nr1, hkr, hnr1⟩ := keyRename_run (copyRow row) pk hpk'
  have hnes : dictFind? nr1 es = some (.str sf) := by
    rw [hnr1 es hesk (fun p hp hpne => (hpk p hp hpne).2.1)]
    exact hcf
  have hnet : dictFind? nr1 et = some (.str st) := by
    rw [hnr1 et hetk (fun p hp hpne => (hpk p hp hpne).2.2)]
    exact hct
  have hgate : (pyTruthy (docGet (copyRow row) pk) ||
      (pyTruthy (docGet (copyRow row) (some es)) &&
       pyTruthy (docGet (copyRow row) (some et)))) = true := by
    have h1 : docGet (copyRow row) (some es) = .str sf := by
      simp [docGet, hcf]
    have h2 : docGet (copyRow row) (some et) = .str st := by
      simp [docGet, hct]
    rw [h1, h2]
    simp [pyTruthy, hsfne, hstne]
  have hpop1 : dictPop nr1 es = .ok (PyVal.str sf, dictErase nr1 es) := by
    simp [dictPop, hnes]
  have hfr2 : dictFind? (dictSet (dictErase nr1 es) "_from" (PyVal.str sf))
      et = some (PyVal.str st) := by
    rw [dictFind?_dictSet_ne _ _ (fun h => hetf h.symm),
      dictFind?_dictErase_ne _ hneq]
    exact hnet
  have hpop2 : dictPop (dictSet (dictErase nr1 es) "_from" (PyVal.str sf))
      et = .ok (PyVal.str st,
        dictErase (dictSet (dictErase nr1 es) "_from" (PyVal.str sf)) et) := by
    simp [dictPop, hfr2]
  refine ⟨dictSet (dictSet (dictSet (dictErase (dictSet (dictErase nr1 es)
      "_from" (PyVal.str sf)) et) "_to" (PyVal.str st)) "_from"
      (.str (resolveEndpoint ntn sf))) "_to"
      (.str (resolveEndpoint ntn st)), ?_, ?_, ?_⟩
  · rw [dictFind?_dictSet_ne _ _ (by decide : "_to" ≠ "_from")]
    exact dictFind?_dictSet_self _ _ _
  · exact dictFind?_dictSet_self _ _ _
  · have hedge : edgeResolve nr1 (some es) (some et) ntn =
        (if (¬ hasSlash sf ∧ ¬ strTruthy ntn) ∨
            (¬ hasSlash st ∧ ¬ strTruthy ntn) then .ok Option.none
         else if strTruthy ntn ∧
            (splitHead (resolveEndpoint ntn st) ≠ ntn.getD "" ∨
             splitHead (resolveEndpoint ntn sf) ≠ ntn.getD "") then
           .ok Option.none
         else if (splitSlash (resolveEndpoint ntn sf)).length > 2 ∨
            (splitSlash (resolveEndpoint ntn st)).length > 2 then
           .ok Option.none
         else .ok (some (dictSet (dictSet (dictSet (dictErase (dictSet
           (dictErase nr1 es) "_from" (PyVal.str sf)) et) "_to"
           (PyVal.str st)) "_from" (.str (resolveEndpoint ntn sf))) "_to"
           (.str (resolveEndpoint ntn st))))) := by
      simp only [edgeResolve, hpop1, hpop2, pyStr]
      rw [if_neg (show ¬ (es = "" ∨ et = "") from by simp [hesne, hetne])]
    have hmain : process_row R row cols pk (some es) (some et) ntn =
        (match edgeResolve nr1 (some es) (some et) ntn with
         | .error e => .error e
         | .ok Option.none => .ok Option.none
         | .ok (some nr2) => .ok (some (coercePass R row cols nr2))) := by
      simp only [process_row, hkr]
      rw [if_neg (fun hc => hc hgate)]
    rw [hmain, hedge]
    by_cases h1 : (¬ hasSlash sf ∧ ¬ strTruthy ntn) ∨
        (¬ hasSlash st ∧ ¬ strTruthy ntn)
    · simp only [if_pos h1]
    · simp only [if_neg h1]
      by_cases h2 : strTruthy ntn ∧
          (splitHead (resolveEndpoint ntn st) ≠ ntn.getD "" ∨
           splitHead (resolveEndpoint ntn sf) ≠ ntn.getD "")
      · simp only [if_pos h2]
      · simp only [if_neg h2]
        by_cases h3 : (splitSlash (resolveEndpoint ntn sf)).length > 2 ∨
            (splitSlash (resolveEndpoint ntn st)).length > 2
        · simp only [if_pos h3]
        · simp only [if_neg h3]

/-- C3: for an accepted edge row, with both endpoint columns declared under
well-formed, distinct, non-reserved names: (i) when an endpoint value
contains no qualifier separator and no default node table is supplied, the
row is rejected; (ii) when a default table is supplied and the row is
accepted, a source endpoint that had no separator appears in the document
under `_from` as exactly `<default>/<original>`, and symmetrically (ii') an
unqualified target endpoint appears under `_to` as exactly
`<default>/<original>`; (iii) when a default table is supplied and a
resolved endpoint's table segment differs from it, the row is rejected. -/
theorem process_row_endpoint_resolution :
    (∀ (R : PyRuntime) (row : Row) (cols : List (String × TTAType))
       (pk ntn : Option String) (es et sf st : String),
      es ≠ "" → et ≠ "" → es ≠ et → es ≠ "_key" → et ≠ "_key" →
      et ≠ "_from" →
      dictFind? row es = some (some sf) → sf ≠ "" →
      dictFind? row et = some (some st) → st ≠ "" →
      (∀ p, pk = some p → p ≠ "" →
        ((dictFind? row p).isSome ∧ p ≠ es ∧ p ≠ et)) →
      ¬ strTruthy ntn →
      (hasSlash sf = false ∨ hasSlash st = false) →
      process_row R row cols pk (some es) (some et) ntn =
        .ok Option.none) ∧
    (∀ (R : PyRuntime) (row : Row) (cols : List (String × TTAType))
       (pk : Option String) (es et sf st n : String) (doc : Doc),
      es ≠ "" → et ≠ "" → es ≠ et → es ≠ "_key" → et ≠ "_key" →
      et ≠ "_from" →
      dictFind? row es = some (some sf) → sf ≠ "" →
      dictFind? row et = some (some st) → st ≠ "" →
      (∀ p, pk = some p → p ≠ "" →
        ((dictFind? row p).isSome ∧ p ≠ es ∧ p ≠ et)) →
      n ≠ "" → hasSlash sf = false →
      dictFind? row "_from" = Option.none →
      process_row R row cols pk (some es) (some et) (some n) =
        .ok (some doc) →
      dictFind? doc "_from" = some (.str (n ++ "/" ++ sf))) ∧
    (∀ (R : PyRuntime) (row : Row) (cols : List (String × TTAType))
       (pk : Option String) (es et sf st n : String) (doc : Doc),
      es ≠ "" → et ≠ "" → es ≠ et → es ≠ "_key" → et ≠ "_key" →
      et ≠ "_from" →
      dictFind? row es = some (some sf) → sf ≠ "" →
      dictFind? row et = some (some st) → st ≠ "" →
      (∀ p, pk = some p → p ≠ "" →
        ((dictFind? row p).isSome ∧ p ≠ es ∧ p ≠ et)) →
      n ≠ "" → hasSlash st = false →
      dictFind? row "_to" = Option.none →
      process_row R row cols pk (some es) (some et) (some n) =
        .ok (some doc) →
      dictFind? doc "_to" = some (.str (n ++ "/" ++ st))) ∧
    (∀ (R : PyRuntime) (row : Row) (cols : List (String × TTAType))
       (pk : Option String) (es et sf st n : String),
      es ≠ "" → et ≠ "" → es ≠ et → es ≠ "_key" → et ≠ "_key" →
      et ≠ "_from" →
      dictFind? row es = some (some sf) → sf ≠ "" →
      dictFind? row et = some (some st) → st ≠ "" →
      (∀ p, pk = some p → p ≠ "" →
        ((dictFind? row p).isSome ∧ p ≠ es ∧ p ≠ et)) →
      n ≠ "" →
      (splitHead (resolveEndpoint (some n) st) ≠ n ∨
       splitHead (resolveEndpoint (some n) sf) ≠ n) →
      process_row R row cols pk (some es) (some et) (some n) =
        .ok Option.none) := by
  refine ⟨?_, ?_, ?_, ?_⟩
  · intro R row cols pk ntn es et sf st h1 h2 h3 h4 h5 h6 h7 h8 h9 h10 hpk
      hntn hns
    obtain ⟨r6, _, _, heq⟩ := process_row_edge_run R row cols pk ntn es et
      sf st h1 h2 h3 h4 h5 h6 h7 h8 h9 h10 hpk
    rw [heq]
    refine if_pos ?_
    rcases hns with h | h
    · exact Or.inl ⟨by simp [h], hntn⟩
    · exact Or.inr ⟨by simp [h], hntn⟩
  · intro R row cols pk es et sf st n doc h1 h2 h3 h4 h5 h6 h7 h8 h9 h10
      hpk hn hsl hrowf hacc
    obtain ⟨r6, hr6f, hr6t, heq⟩ := process_row_edge_run R row cols pk
      (some n) es et sf st h1 h2 h3 h4 h5 h6 h7 h8 h9 h10 hpk
    rw [hacc] at heq
    have hstr : strTruthy (some n) = true := by simp [strTruthy, hn]
    have hline22 : ¬ ((¬ hasSlash sf ∧ ¬ strTruthy (some n)) ∨
        (¬ hasSlash st ∧ ¬ strTruthy (some n))) := by
      simp [hstr]
    rw [if_neg hline22] at heq
    by_cases hc2 : strTruthy (some n) ∧
        (splitHead (resolveEndpoint (some n) st) ≠ (some n).getD "" ∨
         splitHead (resolveEndpoint (some n) sf) ≠ (some n).getD "")
    · rw [if_pos hc2] at heq
      simp at heq
    · rw [if_neg hc2] at heq
      by_cases hc3 : (splitSlash (resolveEndpoint (some n) sf)).length > 2 ∨
          (splitSlash (resolveEndpoint (some n) st)).length > 2
      · rw [if_pos hc3] at heq
        simp at heq
      · rw [if_neg hc3] at heq
        obtain rfl : doc = coercePass R row cols r6 := by
          simpa using heq
        rw [coercePass_find?_of_absent R row cols r6 "_from" hrowf, hr6f,
          resolveEndpoint_qualifies n sf hn hsl]
  · intro R row cols pk es et sf st n doc h1 h2 h3 h4 h5 h6 h7 h8 h9 h10
      hpk hn hslt hrowt hacc
    obtain ⟨r6, hr6f, hr6t, heq⟩ := process_row_edge_run R row cols pk
      (some n) es et sf st h1 h2 h3 h4 h5 h6 h7 h8 h9 h10 hpk
    rw [hacc] at heq
    have hstr : strTruthy (some n) = true := by simp [strTruthy, hn]
    have hline22 : ¬ ((¬ hasSlash sf ∧ ¬ strTruthy (some n)) ∨
        (¬ hasSlash st ∧ ¬ strTruthy (some n))) := by
      simp [hstr]
    rw [if_neg hline22] at heq
    by_cases hc2 : strTruthy (some n) ∧
        (splitHead (resolveEndpoint (some n) st) ≠ (some n).getD "" ∨
         splitHead (resolveEndpoint (some n) sf) ≠ (some n).getD "")
    · rw [if_pos hc2] at heq
      simp at heq
    · rw [if_neg hc2] at heq
      by_cases hc3 : (splitSlash (resolveEndpoint (some n) sf)).length > 2 ∨
          (splitSlash (resolveEndpoint (some n) st)).length > 2
      · rw [if_pos hc3] at heq
        simp at heq
      · rw [if_neg hc3] at heq
        obtain rfl : doc = coercePass R row cols r6 := by
          simpa using heq
        rw [coercePass_find?_of_absent R row cols r6 "_to" hrowt, hr6t,
          resolveEndpoint_qualifies n st hn hslt]
  · intro R row cols pk es et sf st n h1 h2 h3 h4 h5 h6 h7 h8 h9 h10 hpk
      hn hmis
    obtain ⟨r6, _, _, heq⟩ := process_row_edge_run R row cols pk (some n)
      es et sf st h1 h2 h3 h4 h5 h6 h7 h8 h9 h10 hpk
    have hstr : strTruthy (some n) = true := by simp [strTruthy, hn]
    have hline22 : ¬ ((¬ hasSlash sf ∧ ¬ strTruthy (some n)) ∨
        (¬ hasSlash st ∧ ¬ strTruthy (some n))) := by
      simp [hstr]
    rw [heq, if_neg hline22]
    refine if_pos ⟨by simp [hstr], ?_⟩
    exact hmis

/-- Witness for the endpoint-resolution theorem: a bare endpoint with no
default table is rejected; with default table "n" the endpoints of an
accepted row are qualified to exactly "n/…"; a mismatching table segment is
rejected. -/
theorem process_row_endpoint_resolution_witness :
    process_row R0 [("s", some "ab"), ("t", some "cd")] []
        Option.none (some "s") (some "t") Option.none = .ok Option.none ∧
    dictFind? [("_from", PyVal.str "n/x"), ("_to", PyVal.str "n/y")]
        "_from" = some (.str ("n" ++ "/" ++ "x")) ∧
    dictFind? [("_from", PyVal.str "n/x"), ("_to", PyVal.str "n/y")]
        "_to" = some (.str ("n" ++ "/" ++ "y")) ∧
    process_row R0 [("s", some "m/x"), ("t", some "n/y")] []
        Option.none (some "s") (some "t") (some "n") = .ok Option.none := by
  refine ⟨?_, ?_, ?_, ?_⟩
  · exact process_row_endpoint_resolution.1 R0 _ [] Option.none Option.none
      "s" "t" "ab" "cd" (by decide) (by decide) (by decide) (by decide)
      (by decide) (by decide) rfl (by decide) rfl (by decide)
      (fun p hp => nomatch hp) (by decide) (Or.inl (by decide))
  · exact process_row_endpoint_resolution.2.1 R0
      [("s", some "x"), ("t", some "y")] [] Option.none "s" "t" "x" "y" "n"
      [("_from", PyVal.str "n/x"), ("_to", PyVal.str "n/y")]
      (by decide) (by decide) (by decide) (by decide) (by decide)
      (by decide) rfl (by decide) rfl (by decide)
      (fun p hp => nomatch hp) (by decide) (by decide) rfl rfl
  · exact process_row_endpoint_resolution.2.2.1 R0
      [("s", some "x"), ("t", some "y")] [] Option.none "s" "t" "x" "y" "n"
      [("_from", PyVal.str "n/x"), ("_to", PyVal.str "n/y")]
      (by decide) (by decide) (by decide) (by decide) (by decide)
      (by decide) rfl (by decide) rfl (by decide)
      (fun p hp => nomatch hp) (by decide) (by decide) rfl rfl
  · exact process_row_endpoint_resolution.2.2.2 R0 _ [] Option.none
      "s" "t" "m/x" "n/y" "n" (by decide) (by decide) (by decide)
      (by decide) (by decide) (by decide) rfl (by decide) rfl (by decide)
      (fun p hp => nomatch hp) (by decide) (Or.inr (by decide))

/-- C8 amended: the more-than-one-separator check of line 37 runs whenever
both endpoint columns are declared, regardless of whether a default node
table is supplied: in particular, with no default table, an
already-fully-qualified endpoint containing more than one separator leads
to rejection of the row. -/
theorem process_row_multislash_unconditional :
    ∀ (R : PyRuntime) (row : Row) (cols : List (String × TTAType))
      (pk ntn : Option String) (es et sf st : String),
      es ≠ "" → et ≠ "" → es ≠ et → es ≠ "_key" → et ≠ "_key" →
      et ≠ "_from" →
      dictFind? row es = some (some sf) → sf ≠ "" →
      dictFind? row et = some (some st) → st ≠ "" →
      (∀ p, pk = some p → p ≠ "" →
        ((dictFind? row p).isSome ∧ p ≠ es ∧ p ≠ et)) →
      ¬ strTruthy ntn →
      ((splitSlash sf).length > 2 ∨ (splitSlash st).length > 2) →
      process_row R row cols pk (some es) (some et) ntn =
        .ok Option.none := by
  intro R row cols pk ntn es et sf st h1 h2 h3 h4 h5 h6 h7 h8 h9 h10 hpk
    hntn hlen
  obtain ⟨r6, _, _, heq⟩ := process_row_edge_run R row cols pk ntn es et
    sf st h1 h2 h3 h4 h5 h6 h7 h8 h9 h10 hpk
  rw [heq]
  by_cases hc1 : (¬ hasSlash sf ∧ ¬ strTruthy ntn) ∨
      (¬ hasSlash st ∧ ¬ strTruthy ntn)
  · exact if_pos hc1
  · have hc2 : ¬ (strTruthy ntn ∧
        (splitHead (resolveEndpoint ntn st) ≠ ntn.getD "" ∨
         splitHead (resolveEndpoint ntn sf) ≠ ntn.getD "")) :=
      fun hc => hntn hc.1
    have hc3 : (splitSlash (resolveEndpoint ntn sf)).length > 2 ∨
        (splitSlash (resolveEndpoint ntn st)).length > 2 := by
      rw [resolveEndpoint_not_truthy ntn sf hntn,
        resolveEndpoint_not_truthy ntn st hntn]
      exact hlen
    rw [if_neg hc1, if_neg hc2, if_pos hc3]

/-- Witness for the unconditional multi-separator check at a concrete
fully-qualified three-segment endpoint with no default table. -/
theorem process_row_multislash_unconditional_witness :
    process_row R0 [("s", some "p/q/r"), ("t", some "u/v")] []
        Option.none (some "s") (some "t") Option.none = .ok Option.none :=
  process_row_multislash_unconditional R0 _ [] Option.none Option.none
    "s" "t" "p/q/r" "u/v" (by decide) (by decide) (by decide) (by decide)
    (by decide) (by decide) rfl (by decide) rfl (by decide)
    (fun p hp => nomatch hp) (by decide) (Or.inl (by decide))

/-- C10: `process_row` never mutates its input row. At the heap level the
input address still holds exactly the original row (same keys and values)
after the call, whether the row is accepted, rejected or raises; a returned
document lives at the fresh address allocated by `dict(row)` — never the
input address — and the heap run agrees with the pure `process_row` on the
outcome and on the content of the returned document. -/
theorem process_row_frame :
    ∀ (R : PyRuntime) (h : Heap) (a : Nat) (r : Row)
      (cols : List (String × TTAType)) (pk es et ntn : Option String),
      h[a]? = some (Obj.rowObj r) →
      ((processRowH R h a cols pk es et ntn).2)[a]? =
          some (Obj.rowObj r) ∧
      (∀ b, (processRowH R h a cols pk es et ntn).1 = .ok (some b) →
        b = h.length ∧ b ≠ a) ∧
      (processRowH R h a cols pk es et ntn).1 =
        (process_row R r cols pk es et ntn).map
          (Option.map (fun _ => h.length)) ∧
      (∀ d, process_row R r cols pk es et ntn = .ok (some d) →
        heapDoc (processRowH R h a cols pk es et ntn).2 h.length = d) := by
  intro R h a r cols pk es et ntn ha
  have halt : a < h.length := (List.getElem?_eq_some.mp ha).1
  have hrowa : heapRow h a = r := by simp [heapRow, ha]
  have hd1 : heapDoc (h ++ [Obj.docObj (copyRow r)]) h.length =
      copyRow r := by
    simp [heapDoc, List.getElem?_concat_length]
  have h1a : (h ++ [Obj.docObj (copyRow r)])[a]? =
      some (Obj.rowObj r) := by
    rw [List.getElem?_append_left halt]
    exact ha
  have hlen1 : h.length < (h ++ [Obj.docObj (copyRow r)]).length := by
    simp
  by_cases hgate : (pyTruthy (docGet (copyRow r) pk) ||
      (pyTruthy (docGet (copyRow r) es) &&
       pyTruthy (docGet (copyRow r) et))) = true
  case neg =>
    have hH : processRowH R h a cols pk es et ntn =
        (.ok Option.none, h ++ [Obj.docObj (copyRow r)]) := by
      simp only [processRowH, heapAlloc, hrowa, hd1]
      rw [if_pos hgate]
    have hpure : process_row R r cols pk es et ntn = .ok Option.none := by
      simp only [process_row]
      exact if_pos hgate
    refine ⟨?_, ?_, ?_, ?_⟩
    · rw [hH]
      exact h1a
    · intro b hb
      rw [hH] at hb
      simp at hb
    · rw [hH, hpure]
      rfl
    · intro d hd
      rw [hpure] at hd
      simp at hd
  case pos =>
    have hgi : ¬ ¬ (pyTruthy (docGet (copyRow r) pk) ||
        (pyTruthy (docGet (copyRow r) es) &&
         pyTruthy (docGet (copyRow r) et))) = true :=
      fun hc => hc hgate
    rcases hkr : keyRename (copyRow r) pk with e | nr1
    · have hH : processRowH R h a cols pk es et ntn =
          (.error e, h ++ [Obj.docObj (copyRow r)]) := by
        simp only [processRowH, heapAlloc, hrowa, hd1, hkr]
        rw [if_neg hgi]
      have hpure : process_row R r cols pk es et ntn = .error e := by
        simp only [process_row, hkr]
        rw [if_neg hgi]
      refine ⟨?_, ?_, ?_, ?_⟩
      · rw [hH]
        exact h1a
      · intro b hb
        rw [hH] at hb
        simp at hb
      · rw [hH, hpure]
        rfl
      · intro d hd
        rw [hpure] at hd
        simp at hd
    · have hd2 : heapDoc ((h ++ [Obj.docObj (copyRow r)]).set h.length
          (Obj.docObj nr1)) h.length = nr1 := by
        simp [heapDoc, List.getElem?_set_self hlen1]
      have h2a : ((h ++ [Obj.docObj (copyRow r)]).set h.length
          (Obj.docObj nr1))[a]? = some (Obj.rowObj r) := by
        rw [List.getElem?_set_ne (Nat.ne_of_gt halt)]
        exact h1a
      have hlen2 : h.length < ((h ++ [Obj.docObj (copyRow r)]).set h.length
          (Obj.docObj nr1)).length := by
        simp
      rcases hed : edgeResolve nr1 es et ntn with e | o
      · have hH : processRowH R h a cols pk es et ntn =
            (.error e, (h ++ [Obj.docObj (copyRow r)]).set h.length
              (Obj.docObj nr1)) := by
          simp only [processRowH, heapAlloc, hrowa, hd1, hkr, heapWriteDoc,
            hd2, hed]
          rw [if_neg hgi]
        have hpure : process_row R r cols pk es et ntn = .error e := by
          simp only [process_row, hkr, hed]
          rw [if_neg hgi]
        refine ⟨?_, ?_, ?_, ?_⟩
        · rw [hH]
          exact h2a
        · intro b hb
          rw [hH] at hb
          simp at hb
        · rw [hH, hpure]
          rfl
        · intro d hd
          rw [hpure] at hd
          simp at hd
      · rcases o with _ | nr2
        · have hH : processRowH R h a cols pk es et ntn =
              (.ok Option.none, (h ++ [Obj.docObj (copyRow r)]).set h.length
                (Obj.docObj nr1)) := by
            simp only [processRowH, heapAlloc, hrowa, hd1, hkr,
              heapWriteDoc, hd2, hed]
            rw [if_neg hgi]
          have hpure : process_row R r cols pk es et ntn =
              .ok Option.none := by
            simp only [process_row, hkr, hed]
            rw [if_neg hgi]
          refine ⟨?_, ?_, ?_, ?_⟩
          · rw [hH]
            exact h2a
          · intro b hb
            rw [hH] at hb
            simp at hb
          · rw [hH, hpure]
            rfl
          · intro d hd
            rw [hpure] at hd
            simp at hd
        · have hd3 : heapDoc (((h ++ [Obj.docObj (copyRow r)]).set h.length
              (Obj.docObj nr1)).set h.length (Obj.docObj nr2)) h.length =
              nr2 := by
            simp [heapDoc, List.getElem?_set_self hlen2]
          have h3a : (((h ++ [Obj.docObj (copyRow r)]).set h.length
              (Obj.docObj nr1)).set h.length (Obj.docObj nr2))[a]? =
              some (Obj.rowObj r) := by
            rw [List.getElem?_set_ne (Nat.ne_of_gt halt)]
            exact h2a
          have hrow3 : heapRow (((h ++ [Obj.docObj (copyRow r)]).set
              h.length (Obj.docObj nr1)).set h.length (Obj.docObj nr2)) a =
              r := by
            simp only [heapRow]
            rw [h3a]
          have hlen3 : h.length < (((h ++ [Obj.docObj (copyRow r)]).set
              h.length (Obj.docObj nr1)).set h.length
              (Obj.docObj nr2)).length := by
            simp
          have hH : processRowH R h a cols pk es et ntn =
              (.ok (some h.length),
               (((h ++ [Obj.docObj (copyRow r)]).set h.length
                 (Obj.docObj nr1)).set h.length (Obj.docObj nr2)).set
                 h.length (Obj.docObj (coercePass R r cols nr2))) := by
            simp only [processRowH, heapAlloc, hrowa, hd1, hkr,
              heapWriteDoc, hd2, hed, hd3, hrow3]
            rw [if_neg hgi]
          have hpure : process_row R r cols pk es et ntn =
              .ok (some (coercePass R r cols nr2)) := by
            simp only [process_row, hkr, hed]
            rw [if_neg hgi]
          have h4b : ((((h ++ [Obj.docObj (copyRow r)]).set h.length
              (Obj.docObj nr1)).set h.length (Obj.docObj nr2)).set h.length
              (Obj.docObj (coercePass R r cols nr2)))[h.length]? =
              some (Obj.docObj (coercePass R r cols nr2)) :=
            List.getElem?_set_self hlen3
          refine ⟨?_, ?_, ?_, ?_⟩
          · rw [hH]
            rw [List.getElem?_set_ne (Nat.ne_of_gt halt)]
            exact h3a
          · intro b hb
            rw [hH] at hb
            obtain rfl : h.length = b := by simpa using hb
            exact ⟨rfl, Nat.ne_of_gt halt⟩
          · rw [hH, hpure]
            rfl
          · intro d hd
            rw [hpure] at hd
            obtain rfl : coercePass R r cols nr2 = d := by simpa using hd
            rw [hH]
            simp [heapDoc, h4b]

/-- Witness for the frame theorem on a one-object heap holding a single-key
row. -/
theorem process_row_frame_witness :
    ((processRowH R0 [Obj.rowObj [("id", some "1")]] 0 []
        (some "id") Option.none Option.none Option.none).2)[0]? =
      some (Obj.rowObj [("id", some "1")]) ∧
    (∀ b, (processRowH R0 [Obj.rowObj [("id", some "1")]] 0 []
        (some "id") Option.none Option.none Option.none).1 =
        .ok (some b) → b = 1 ∧ b ≠ 0) ∧
    (processRowH R0 [Obj.rowObj [("id", some "1")]] 0 []
        (some "id") Option.none Option.none Option.none).1 =
      (process_row R0 [("id", some "1")] [] (some "id") Option.none
        Option.none Option.none).map (Option.map (fun _ => 1)) ∧
    (∀ d, process_row R0 [("id", some "1")] [] (some "id") Option.none
        Option.none Option.none = .ok (some d) →
      heapDoc (processRowH R0 [Obj.rowObj [("id", some "1")]] 0 []
        (some "id") Option.none Option.none Option.none).2 1 = d) :=
  process_row_frame R0 [Obj.rowObj [("id", some "1")]] 0
    [("id", some "1")] [] (some "id") Option.none Option.none Option.none
    rfl

end Multinet
